import Mathlib

/-!
Verification of the friend-relationship subsystem of the wallet-server
repository.  The definitions below are a shallow embedding of the friend
system methods of `src/server/database-postgres.js` (the backend selected
unconditionally by `database-hybrid.js`; `src/server/database.js` implements
the identical logic over SQLite) together with the HTTP status mapping of the
friend routes in the Express server file.
-/

namespace WalletServer

/-- Friendship status.  The code stores it as a VARCHAR but only ever writes
the three values `'pending'` (insert default), `'accepted'` and `'rejected'`
(the two updates in `respondToFriendRequest`). -/
inductive Status where
  | pending
  | accepted
  | rejected
deriving DecidableEq

/-- A row of the `users` table (the columns the friend system reads). -/
structure User where
  id : String
  username : String
  displayName : String
  avatarUrl : Option String
deriving DecidableEq

/-- A row of the `friends` table (`createTables`): id, requester_id,
addressee_id, status, created_at, updated_at.  Timestamps are modelled as
abstract `Nat` instants. -/
structure Friendship where
  id : String
  requesterId : String
  addresseeId : String
  status : Status
  createdAt : Nat
  updatedAt : Nat
deriving DecidableEq

/-- A calendar date (the `expenses.date` column), ordered lexicographically. -/
structure Date where
  year : Nat
  month : Nat
  day : Nat
deriving DecidableEq

/-- SQL `date1 <= date2` on calendar dates (lexicographic). -/
def Date.le (a b : Date) : Bool :=
  a.year < b.year ||
    (a.year == b.year &&
      (a.month < b.month || (a.month == b.month && a.day ≤ b.day)))

/-- `TO_CHAR(date, 'YYYY-MM')` groups and sorts by year then month; we model
the key numerically as `year * 100 + month`, which sorts the same way. -/
def monthKey (d : Date) : Nat := d.year * 100 + d.month

/-- A row of the `expenses` table (the columns `getFriendStats` reads).
`amount` is a `DECIMAL(10,2)`, modelled as an exact rational. -/
structure Expense where
  userId : String
  amount : ℚ
  date : Date
  category : String
deriving DecidableEq

/-- The relational store: the three tables the friend system touches. -/
structure DB where
  users : List User
  friends : List Friendship
  expenses : List Expense
deriving DecidableEq

/-- The errors thrown by the friend-system methods, identified by the exact
`Error` message the code constructs. -/
inductive FriendErr where
  | userNotFound
  | selfRequest
  | alreadyExists
  | invalidAction
  | requestNotFound
  | notFriends
deriving DecidableEq

/-- The `Error` message string attached to each failure in the source. -/
def FriendErr.message : FriendErr → String
  | .userNotFound => "User not found"
  | .selfRequest => "Cannot send friend request to yourself"
  | .alreadyExists => "Friend request already exists"
  | .invalidAction => "Invalid action"
  | .requestNotFound => "Friend request not found"
  | .notFriends => "Not friends with this user"

/-- `getUserById`: `SELECT ... FROM users WHERE id = $1` (primary-key lookup,
modelled as first match). -/
def getUserById (db : DB) (userId : String) : Option User :=
  db.users.find? (fun u => u.id == userId)

/-- The duplicate-friendship condition of `sendFriendRequest` and the
authorization condition of `getFriendStats`:
`(requester_id = $1 AND addressee_id = $2) OR (requester_id = $2 AND addressee_id = $1)`. -/
def relatesPair (f : Friendship) (a b : String) : Bool :=
  (f.requesterId == a && f.addresseeId == b) ||
    (f.requesterId == b && f.addresseeId == a)

/-- The `{id, status}` row returned by `sendFriendRequest`. -/
structure SendResult where
  id : String
  status : Status
deriving DecidableEq

/-- `sendFriendRequest(requesterId, addresseeId)` of
`database-postgres.js`: both users must exist, then the self-request check,
then the unordered-pair duplicate check, then the insert of a `'pending'`
row.  `freshId` stands for `uuidv4()` and `now` for `CURRENT_TIMESTAMP`.
A thrown error rolls the transaction back, so the error case returns no
store. -/
def sendFriendRequest (db : DB) (requesterId addresseeId : String)
    (freshId : String) (now : Nat) : Except FriendErr (SendResult × DB) :=
  if (getUserById db requesterId).isNone || (getUserById db addresseeId).isNone then
    .error .userNotFound
  else if requesterId == addresseeId then
    .error .selfRequest
  else if db.friends.any (fun f => relatesPair f requesterId addresseeId) then
    .error .alreadyExists
  else
    let f : Friendship := ⟨freshId, requesterId, addresseeId, .pending, now, now⟩
    .ok (⟨freshId, Status.pending⟩, { db with friends := db.friends ++ [f] })

/-- The `{status}` row returned by `respondToFriendRequest`. -/
structure RespondResult where
  status : Status
deriving DecidableEq

/-- `respondToFriendRequest(friendshipId, userId, action)`: the action is
validated first; then `SELECT * FROM friends WHERE id = $1 AND
addressee_id = $2` must find a row; then `UPDATE friends SET status = $1,
updated_at = CURRENT_TIMESTAMP WHERE id = $2` (note: the update is keyed on
the id alone).  There is no check on the current status of the row. -/
def respondToFriendRequest (db : DB) (friendshipId userId action : String)
    (now : Nat) : Except FriendErr (RespondResult × DB) :=
  if action != "accept" && action != "reject" then
    .error .invalidAction
  else
    match db.friends.find? (fun f => f.id == friendshipId && f.addresseeId == userId) with
    | none => .error .requestNotFound
    | some _ =>
      let newStatus : Status := if action == "accept" then .accepted else .rejected
      let friends := db.friends.map (fun f =>
        if f.id == friendshipId then { f with status := newStatus, updatedAt := now } else f)
      .ok (⟨newStatus⟩, { db with friends := friends })

/-- A row of the `getFriends` result: friendship id, status and creation
time joined with the other party's public profile columns. -/
structure FriendRow where
  friendshipId : String
  status : Status
  friendshipCreated : Nat
  id : String
  username : String
  displayName : String
  avatarUrl : Option String
deriving DecidableEq

/-- The JOIN of `getFriends`: `CASE WHEN f.requester_id = $1 THEN u.id =
f.addressee_id ELSE u.id = f.requester_id END` — resolve the other party's
profile; the row is dropped if no such user exists (inner join). -/
def friendRowOf (db : DB) (userId : String) (f : Friendship) : Option FriendRow :=
  (getUserById db (if f.requesterId == userId then f.addresseeId else f.requesterId)).map
    (fun u => ⟨f.id, f.status, f.createdAt, u.id, u.username, u.displayName, u.avatarUrl⟩)

/-- `ORDER BY f.created_at DESC`: row `a` may come before `b` when `b` was
created no later than `a`. -/
def laterFirst (a b : FriendRow) : Prop := b.friendshipCreated ≤ a.friendshipCreated

instance : DecidableRel laterFirst := fun a b =>
  inferInstanceAs (Decidable (b.friendshipCreated ≤ a.friendshipCreated))

instance : IsTotal FriendRow laterFirst :=
  ⟨fun a b => Nat.le_total b.friendshipCreated a.friendshipCreated⟩

instance : IsTrans FriendRow laterFirst :=
  ⟨fun _ _ _ hab hbc => Nat.le_trans hbc hab⟩

/-- `getFriends(userId)`: every friendship where `userId` is either party and
`status = 'accepted'`, joined with the other party's profile, most recently
created first. -/
def getFriends (db : DB) (userId : String) : List FriendRow :=
  let rows := (db.friends.filter (fun f =>
      (f.requesterId == userId || f.addresseeId == userId) && f.status == Status.accepted)).filterMap
    (friendRowOf db userId)
  List.insertionSort laterFirst rows

/-- Postgres `ROUND(x::numeric, 2)` on the non-negative amounts handled here:
round half away from zero to two decimal places. -/
def round2 (q : ℚ) : ℚ := (⌊q * 100 + 1 / 2⌋ : ℤ) / 100

/-- `SUM(amount)` over a list of rows. -/
def ratSum (l : List ℚ) : ℚ := l.foldr (· + ·) 0

/-- First-occurrence deduplication: the distinct keys produced by a SQL
`GROUP BY`, in order of first appearance. -/
def dedupFirst {κ : Type} [BEq κ] (l : List κ) : List κ :=
  l.foldl (fun acc k => if acc.contains k then acc else acc ++ [k]) []

/-- A row of the `monthlyData` result of `getFriendStats`. -/
structure MonthRow where
  month : Nat
  count : Nat
  total : ℚ
deriving DecidableEq

/-- A row of the `categoryBreakdown` result of `getFriendStats`. -/
structure CategoryRow where
  category : String
  count : Nat
  total : ℚ
deriving DecidableEq

/-- The object returned by `getFriendStats`. -/
structure FriendStats where
  totalExpenses : Nat
  totalAmount : ℚ
  averageAmount : ℚ
  monthlyData : List MonthRow
  categoryBreakdown : List CategoryRow
deriving DecidableEq

/-- `ORDER BY month DESC` for the monthly buckets. -/
def monthDesc (a b : MonthRow) : Prop := b.month ≤ a.month

instance : DecidableRel monthDesc := fun a b =>
  inferInstanceAs (Decidable (b.month ≤ a.month))

instance : IsTotal MonthRow monthDesc := ⟨fun a b => Nat.le_total b.month a.month⟩

instance : IsTrans MonthRow monthDesc := ⟨fun _ _ _ hab hbc => Nat.le_trans hbc hab⟩

/-- `ORDER BY total DESC` for the category buckets. -/
def totalDesc (a b : CategoryRow) : Prop := b.total ≤ a.total

instance : DecidableRel totalDesc := fun a b =>
  inferInstanceAs (Decidable (b.total ≤ a.total))

instance : IsTotal CategoryRow totalDesc := ⟨fun a b => le_total b.total a.total⟩

instance : IsTrans CategoryRow totalDesc := ⟨fun _ _ _ hab hbc => le_trans hbc hab⟩

/-- `getFriendStats(friendId, currentUserId)` of `database-postgres.js`.
First the authorization gate (an `'accepted'` friendship must relate the
unordered pair), then three aggregations over the friend's expenses:
totals over all rows, monthly buckets over rows with
`date >= CURRENT_DATE - INTERVAL '6 months'` (the computed cutoff date is
the `cutoff` parameter), and category buckets over all rows with no date
condition.  `COALESCE(..., 0)` yields 0 totals when the friend has no
expenses. -/
def getFriendStats (db : DB) (friendId currentUserId : String) (cutoff : Date) :
    Except FriendErr FriendStats :=
  if !(db.friends.any (fun f =>
      relatesPair f currentUserId friendId && f.status == Status.accepted)) then
    .error .notFriends
  else
    let es := db.expenses.filter (fun e => e.userId == friendId)
    let totalAmount := if es.isEmpty then 0 else round2 (ratSum (es.map (·.amount)))
    let averageAmount :=
      if es.isEmpty then 0 else round2 (ratSum (es.map (·.amount)) / es.length)
    let recent := es.filter (fun e => Date.le cutoff e.date)
    let monthly := (dedupFirst (recent.map (fun e => monthKey e.date))).map (fun m =>
      let g := recent.filter (fun e => monthKey e.date == m)
      MonthRow.mk m g.length (round2 (ratSum (g.map (·.amount)))))
    let cats := (dedupFirst (es.map (·.category))).map (fun c =>
      let g := es.filter (fun e => e.category == c)
      CategoryRow.mk c g.length (round2 (ratSum (g.map (·.amount)))))
    .ok ⟨es.length, totalAmount, averageAmount,
      List.insertionSort monthDesc monthly, List.insertionSort totalDesc cats⟩

/-- The new store after a `sendFriendRequest` call: on an error the
transaction is rolled back, so the store is unchanged. -/
def applySend (db : DB) (requesterId addresseeId freshId : String) (now : Nat) : DB :=
  match sendFriendRequest db requesterId addresseeId freshId now with
  | .ok (_, db') => db'
  | .error _ => db

/-- The new store after a `respondToFriendRequest` call: on an error nothing
was written, so the store is unchanged. -/
def applyRespond (db : DB) (friendshipId userId action : String) (now : Nat) : DB :=
  match respondToFriendRequest db friendshipId userId action now with
  | .ok (_, db') => db'
  | .error _ => db

/-- The operations that mutate the friendship store. -/
inductive Op where
  | send (requesterId addresseeId freshId : String) (now : Nat)
  | respond (friendshipId userId action : String) (now : Nat)

/-- One mutating operation applied to the store. -/
def stepOp (db : DB) : Op → DB
  | .send r a f n => applySend db r a f n
  | .respond f u act n => applyRespond db f u act n

/-! ### HTTP route layer

The friend routes of the Express server classify a thrown error by substring
tests on `error.message` (`error.message.includes(...)`). -/

/-- `l` starts with `pat` (character lists). -/
def startsWithChars : List Char → List Char → Bool
  | _, [] => true
  | [], _ :: _ => false
  | a :: as, b :: bs => a == b && startsWithChars as bs

/-- `pat` occurs contiguously somewhere in `l` (character lists). -/
def includesChars : List Char → List Char → Bool
  | [], pat => pat.isEmpty
  | l@(_ :: rest), pat => startsWithChars l pat || includesChars rest pat

/-- JavaScript `s.includes(pat)`. -/
def strIncludes (s pat : String) : Bool := includesChars s.data pat.data

/-- HTTP status of `POST /api/friends/request`: `201` on success; `400` when
the error message includes `'already exists'`, `'not found'` or `'yourself'`;
otherwise `500`. -/
def sendRouteStatus (r : Except FriendErr (SendResult × DB)) : Nat :=
  match r with
  | .ok _ => 201
  | .error e =>
    if strIncludes e.message "already exists" || strIncludes e.message "not found" ||
        strIncludes e.message "yourself" then 400
    else 500

/-- HTTP status of `POST /api/friends/respond`: `200` on success; `400` when
the error message includes `'not found'` or `'Invalid'`; otherwise `500`. -/
def respondRouteStatus (r : Except FriendErr (RespondResult × DB)) : Nat :=
  match r with
  | .ok _ => 200
  | .error e =>
    if strIncludes e.message "not found" || strIncludes e.message "Invalid" then 400
    else 500

/-- HTTP status of `GET /api/friends/:friendId/stats`: `200` on success;
`403` when the error message includes `'Not friends'`; otherwise `500`. -/
def statsRouteStatus (r : Except FriendErr FriendStats) : Nat :=
  match r with
  | .ok _ => 200
  | .error e => if strIncludes e.message "Not friends" then 403 else 500

/-- At most one friendship record relates any unordered pair of user ids. -/
def pairUnique (db : DB) : Prop :=
  ∀ a b : String, db.friends.countP (fun f => relatesPair f a b) ≤ 1

/-! ### Helper lemmas -/

theorem relatesPair_symm (f : Friendship) (a b : String) :
    relatesPair f a b = relatesPair f b a := by
  simp [relatesPair, Bool.or_comm]

/-- Case analysis on `applySend`: the store is unchanged, or (when the
duplicate check passed) a fresh pending record was appended. -/
theorem applySend_friends (db : DB) (r a f : String) (n : Nat) :
    (applySend db r a f n).friends = db.friends ∨
      (db.friends.any (fun g => relatesPair g r a) = false ∧
        (applySend db r a f n).friends =
          db.friends ++ [⟨f, r, a, Status.pending, n, n⟩]) := by
  by_cases h1 : ((getUserById db r).isNone || (getUserById db a).isNone) = true
  · exact Or.inl (by simp [applySend, sendFriendRequest, h1])
  · by_cases h2 : (r == a) = true
    · exact Or.inl (by simp [applySend, sendFriendRequest, h1, h2])
    · by_cases h3 : (db.friends.any fun g => relatesPair g r a) = true
      · exact Or.inl (by simp [applySend, sendFriendRequest, h1, h2, h3])
      · exact Or.inr ⟨Bool.not_eq_true _ ▸ h3,
          by simp [applySend, sendFriendRequest, h1, h2, h3]⟩

/-- Case analysis on `applyRespond`: the store is unchanged, or every record
with the given id had its status set to `accepted` or `rejected`. -/
theorem applyRespond_friends (db : DB) (fid uid act : String) (n : Nat) :
    (applyRespond db fid uid act n).friends = db.friends ∨
      ∃ st : Status, (st = Status.accepted ∨ st = Status.rejected) ∧
        (applyRespond db fid uid act n).friends = db.friends.map (fun g =>
          if g.id == fid then { g with status := st, updatedAt := n } else g) := by
  by_cases h1 : (act != "accept" && act != "reject") = true
  · exact Or.inl (by simp [applyRespond, respondToFriendRequest, h1])
  · cases hfind : db.friends.find? (fun g => g.id == fid && g.addresseeId == uid) with
    | none => exact Or.inl (by simp [applyRespond, respondToFriendRequest, h1, hfind])
    | some g =>
      refine Or.inr ⟨if act == "accept" then Status.accepted else Status.rejected, ?_, ?_⟩
      · by_cases h2 : (act == "accept") = true
        · exact Or.inl (by simp [h2])
        · exact Or.inr (by simp [h2])
      · simp [applyRespond, respondToFriendRequest, h1, hfind]

/-- Record updates performed by `respondToFriendRequest` do not change the
requester or addressee, so pair-relating is invariant under them. -/
theorem relatesPair_update (g : Friendship) (c : Bool) (st : Status) (n : Nat)
    (a b : String) :
    relatesPair (if c then { g with status := st, updatedAt := n } else g) a b =
      relatesPair g a b := by
  cases c <;> rfl

theorem mem_of_mem_dedupFirst {κ : Type} [BEq κ] {l : List κ} {x : κ}
    (h : x ∈ dedupFirst l) : x ∈ l := by
  have key : ∀ (l : List κ) (acc : List κ),
      x ∈ l.foldl (fun acc k => if acc.contains k then acc else acc ++ [k]) acc →
        x ∈ acc ∨ x ∈ l := by
    intro l
    induction l with
    | nil => intro acc h; exact Or.inl h
    | cons k ks ih =>
      intro acc h
      rcases ih _ h with h' | h'
      · have h2 : x ∈ if acc.contains k = true then acc else acc ++ [k] := h'
        by_cases hc : acc.contains k = true
        · rw [if_pos hc] at h2
          exact Or.inl h2
        · rw [if_neg hc] at h2
          rcases List.mem_append.mp h2 with h'' | h''
          · exact Or.inl h''
          · exact Or.inr (List.mem_cons.mpr (Or.inl (List.mem_singleton.mp h'')))
      · exact Or.inr (List.mem_cons_of_mem _ h')
  rcases key l [] h with h' | h'
  · simp at h'
  · exact h'

theorem mem_dedupFirst_of_mem {κ : Type} [BEq κ] [LawfulBEq κ] {l : List κ} {x : κ}
    (h : x ∈ l) : x ∈ dedupFirst l := by
  have key : ∀ (l : List κ) (acc : List κ), (x ∈ acc ∨ x ∈ l) →
      x ∈ l.foldl (fun acc k => if acc.contains k then acc else acc ++ [k]) acc := by
    intro l
    induction l with
    | nil => intro acc h; simpa using h
    | cons k ks ih =>
      intro acc h
      apply ih
      rcases h with h' | h'
      · refine Or.inl (show x ∈ if acc.contains k = true then acc else acc ++ [k] from ?_)
        by_cases hc : acc.contains k = true
        · rw [if_pos hc]; exact h'
        · rw [if_neg hc]; exact List.mem_append_left _ h'
      · rcases List.mem_cons.mp h' with h'' | h''
        · refine Or.inl (show x ∈ if acc.contains k = true then acc else acc ++ [k] from ?_)
          subst h''
          by_cases hc : acc.contains x = true
          · rw [if_pos hc]; exact List.mem_of_elem_eq_true hc
          · rw [if_neg hc]; exact List.mem_append_right _ (List.mem_singleton.mpr rfl)
        · exact Or.inr h''
  exact key l [] (Or.inr h)

/-- Every value produced by `round2` is an integer number of hundredths. -/
theorem round2_image (q : ℚ) : ∃ k : ℤ, round2 q = (k : ℚ) / 100 :=
  ⟨⌊q * 100 + 1 / 2⌋, rfl⟩

/-! ### C1 — status transitions -/

/-- C1 (counterexample): from two users, `sendFriendRequest` followed by an
`accept` reaches a store whose record has status `accepted`; a subsequent
`respondToFriendRequest` by the same addressee with action `'reject'`
succeeds and changes the status to `rejected`.  So `accepted` is not a
terminal state: the claimed invariant "no transition out of
`accepted`/`rejected`" fails on a reachable state. -/
theorem accepted_status_overwritten :
    stepOp (stepOp (DB.mk [⟨"a", "alice", "Alice", none⟩, ⟨"b", "bob", "Bob", none⟩] [] [])
        (.send "a" "b" "f1" 0)) (.respond "f1" "b" "accept" 1) =
      DB.mk [⟨"a", "alice", "Alice", none⟩, ⟨"b", "bob", "Bob", none⟩]
        [⟨"f1", "a", "b", Status.accepted, 0, 1⟩] [] ∧
    respondToFriendRequest
        (DB.mk [⟨"a", "alice", "Alice", none⟩, ⟨"b", "bob", "Bob", none⟩]
          [⟨"f1", "a", "b", Status.accepted, 0, 1⟩] [])
        "f1" "b" "reject" 2 =
      .ok (⟨Status.rejected⟩,
        DB.mk [⟨"a", "alice", "Alice", none⟩, ⟨"b", "bob", "Bob", none⟩]
          [⟨"f1", "a", "b", Status.rejected, 0, 2⟩] []) :=
  ⟨rfl, rfl⟩

/-- C1 (amended): in every state, one operation either leaves the friendship
records unchanged, appends a fresh `pending` record, or rewrites the status
of the records with one id to `accepted` or `rejected`.  Hence a status never
transitions back to `pending`; but `accepted` and `rejected` are not
terminal, since a later respond call may rewrite a decided record's status
again. -/
theorem status_change_shape (db : DB) (op : Op) :
    (stepOp db op).friends = db.friends ∨
    (∃ f : Friendship, f.status = Status.pending ∧
      (stepOp db op).friends = db.friends ++ [f]) ∨
    (∃ (fid : String) (st : Status) (n : Nat),
      (st = Status.accepted ∨ st = Status.rejected) ∧
      (stepOp db op).friends = db.friends.map (fun g =>
        if g.id == fid then { g with status := st, updatedAt := n } else g)) := by
  cases op with
  | send r a f n =>
    rcases applySend_friends db r a f n with h | ⟨_, h⟩
    · exact Or.inl h
    · exact Or.inr (Or.inl ⟨⟨f, r, a, Status.pending, n, n⟩, rfl, h⟩)
  | respond fid uid act n =>
    rcases applyRespond_friends db fid uid act n with h | ⟨st, hst, h⟩
    · exact Or.inl h
    · exact Or.inr (Or.inr ⟨fid, st, n, hst, h⟩)

/-! ### C2 — unordered-pair uniqueness -/

/-- C2: every operation preserves the invariant that at most one friendship
record relates any unordered pair of user ids: the mutation of
`respondToFriendRequest` never touches the requester/addressee columns, and
`sendFriendRequest` inserts only after its order-independent duplicate check
found no record relating the pair. -/
theorem pair_unique_preserved (db : DB) (op : Op) (h : pairUnique db) :
    pairUnique (stepOp db op) := by
  cases op with
  | send r a f n =>
    rcases applySend_friends db r a f n with hfr | ⟨hguard, hfr⟩
    · intro x y; rw [show (stepOp db (.send r a f n)).friends = db.friends from hfr]
      exact h x y
    · intro x y
      rw [show (stepOp db (.send r a f n)).friends =
        db.friends ++ [⟨f, r, a, Status.pending, n, n⟩] from hfr]
      rw [List.countP_append]
      by_cases hp : relatesPair ⟨f, r, a, Status.pending, n, n⟩ x y = true
      · have hzero : db.friends.countP (fun g => relatesPair g x y) = 0 := by
          rw [List.countP_eq_zero]
          intro g hg
          have hnone := List.any_eq_false.mp hguard g hg
          have hcases : (r = x ∧ a = y) ∨ (r = y ∧ a = x) := by
            simpa [relatesPair, Bool.or_eq_true, Bool.and_eq_true, beq_iff_eq] using hp
          rcases hcases with ⟨hx, hy⟩ | ⟨hx, hy⟩
          · rw [← hx, ← hy]; exact hnone
          · rw [← hx, ← hy, relatesPair_symm]; exact hnone
        simp [hzero, List.countP_cons, hp]
      · have hone : List.countP (fun g => relatesPair g x y)
            [(⟨f, r, a, Status.pending, n, n⟩ : Friendship)] = 0 := by
          rw [List.countP_eq_zero]
          intro g hg
          rw [List.mem_singleton.mp hg]
          exact Bool.not_eq_true _ ▸ hp
        rw [hone, Nat.add_zero]
        exact h x y
  | respond fid uid act n =>
    rcases applyRespond_friends db fid uid act n with hfr | ⟨st, _, hfr⟩
    · intro x y; rw [show (stepOp db (.respond fid uid act n)).friends = db.friends from hfr]
      exact h x y
    · intro x y
      rw [show (stepOp db (.respond fid uid act n)).friends = db.friends.map (fun g =>
        if g.id == fid then { g with status := st, updatedAt := n } else g) from hfr]
      rw [List.countP_map]
      have : (db.friends.countP
          ((fun g => relatesPair g x y) ∘ (fun g =>
            if g.id == fid then { g with status := st, updatedAt := n } else g))) =
          db.friends.countP (fun g => relatesPair g x y) := by
        apply List.countP_congr
        intro g _
        simp only [Function.comp_apply, relatesPair_update]
      rw [this]
      exact h x y

/-- C2 (witness): the invariant holds in a concrete two-user store with no
records and is preserved by a concrete send operation. -/
theorem pair_unique_preserved_witness :
    pairUnique (DB.mk [⟨"a", "alice", "Alice", none⟩, ⟨"b", "bob", "Bob", none⟩] [] []) ∧
    pairUnique (stepOp
      (DB.mk [⟨"a", "alice", "Alice", none⟩, ⟨"b", "bob", "Bob", none⟩] [] [])
      (.send "a" "b" "f1" 0)) :=
  have h0 : pairUnique
      (DB.mk [⟨"a", "alice", "Alice", none⟩, ⟨"b", "bob", "Bob", none⟩] [] []) := by
    intro a b; simp
  ⟨h0, pair_unique_preserved _ _ h0⟩

/-! ### C3 — duplicate requests fail with Conflict in both directions -/

/-- C3: if both users exist, are distinct, and some record already relates
the unordered pair (in any status), then `sendFriendRequest` in either
direction fails with the Conflict error (`'Friend request already exists'`)
and leaves the store unchanged. -/
theorem duplicate_request_conflict (db : DB) (A B fresh fresh' : String)
    (now now' : Nat)
    (hA : (getUserById db A).isSome = true) (hB : (getUserById db B).isSome = true)
    (hAB : A ≠ B) (hEx : ∃ f ∈ db.friends, relatesPair f A B = true) :
    sendFriendRequest db B A fresh now = .error .alreadyExists ∧
    sendFriendRequest db A B fresh' now' = .error .alreadyExists ∧
    applySend db B A fresh now = db ∧ applySend db A B fresh' now' = db := by
  obtain ⟨uA, hAu⟩ := Option.isSome_iff_exists.mp hA
  obtain ⟨uB, hBu⟩ := Option.isSome_iff_exists.mp hB
  obtain ⟨f, hfmem, hfrel⟩ := hEx
  have hBA : (B == A) = false := beq_eq_false_iff_ne.mpr (Ne.symm hAB)
  have hABb : (A == B) = false := beq_eq_false_iff_ne.mpr hAB
  have hany1 : (db.friends.any fun g => relatesPair g B A) = true :=
    List.any_eq_true.mpr ⟨f, hfmem, by rw [← relatesPair_symm]; exact hfrel⟩
  have hany2 : (db.friends.any fun g => relatesPair g A B) = true :=
    List.any_eq_true.mpr ⟨f, hfmem, hfrel⟩
  have h1 : sendFriendRequest db B A fresh now = .error .alreadyExists := by
    simp [sendFriendRequest, hAu, hBu, hBA, hany1]
  have h2 : sendFriendRequest db A B fresh' now' = .error .alreadyExists := by
    simp [sendFriendRequest, hAu, hBu, hABb, hany2]
  exact ⟨h1, h2, by simp [applySend, h1], by simp [applySend, h2]⟩

/-- C3 (witness): concrete two-user store holding one pending record for the
pair; both directions of a re-request yield the Conflict error and keep the
store unchanged. -/
theorem duplicate_request_conflict_witness :
    sendFriendRequest
        (DB.mk [⟨"a", "alice", "Alice", none⟩, ⟨"b", "bob", "Bob", none⟩]
          [⟨"f1", "a", "b", Status.pending, 0, 0⟩] []) "b" "a" "f2" 5 =
      .error .alreadyExists ∧
    sendFriendRequest
        (DB.mk [⟨"a", "alice", "Alice", none⟩, ⟨"b", "bob", "Bob", none⟩]
          [⟨"f1", "a", "b", Status.pending, 0, 0⟩] []) "a" "b" "f3" 6 =
      .error .alreadyExists ∧
    applySend
        (DB.mk [⟨"a", "alice", "Alice", none⟩, ⟨"b", "bob", "Bob", none⟩]
          [⟨"f1", "a", "b", Status.pending, 0, 0⟩] []) "b" "a" "f2" 5 =
      DB.mk [⟨"a", "alice", "Alice", none⟩, ⟨"b", "bob", "Bob", none⟩]
        [⟨"f1", "a", "b", Status.pending, 0, 0⟩] [] ∧
    applySend
        (DB.mk [⟨"a", "alice", "Alice", none⟩, ⟨"b", "bob", "Bob", none⟩]
          [⟨"f1", "a", "b", Status.pending, 0, 0⟩] []) "a" "b" "f3" 6 =
      DB.mk [⟨"a", "alice", "Alice", none⟩, ⟨"b", "bob", "Bob", none⟩]
        [⟨"f1", "a", "b", Status.pending, 0, 0⟩] [] :=
  duplicate_request_conflict _ "a" "b" "f2" "f3" 5 6 (by decide) (by decide)
    (by decide) ⟨⟨"f1", "a", "b", Status.pending, 0, 0⟩, by simp, rfl⟩

/-! ### C4 — stats authorization gate -/

/-- C4: `getFriendStats(B, A)` fails with the Forbidden error
(`'Not friends with this user'`) exactly when no record with status
`accepted` relates the unordered pair `{A, B}`; on that failure the call
returns an error and hence none of B's expense data. -/
theorem stats_forbidden_iff (db : DB) (B A : String) (cutoff : Date) :
    getFriendStats db B A cutoff = .error .notFriends ↔
      ∀ f ∈ db.friends, ¬(relatesPair f A B = true ∧ f.status = Status.accepted) := by
  cases hany : db.friends.any (fun f =>
      relatesPair f A B && f.status == Status.accepted) with
  | true =>
    have hne : getFriendStats db B A cutoff ≠ .error .notFriends := by
      simp [getFriendStats, hany]
    refine ⟨fun h => absurd h hne, fun hall => ?_⟩
    obtain ⟨f, hfmem, hf⟩ := List.any_eq_true.mp hany
    rw [Bool.and_eq_true] at hf
    exact absurd ⟨hf.1, beq_iff_eq.mp hf.2⟩ (hall f hfmem)
  | false =>
    have heq : getFriendStats db B A cutoff = .error .notFriends := by
      simp [getFriendStats, hany]
    refine ⟨fun _ f hfmem hf => ?_, fun _ => heq⟩
    have hne := List.any_eq_false.mp hany f hfmem
    rw [Bool.and_eq_true] at hne
    exact hne ⟨hf.1, beq_iff_eq.mpr hf.2⟩

/-- C4 (witness): in a store whose only record for the pair is `pending`,
the stats call fails with the Forbidden error. -/
theorem stats_forbidden_iff_witness :
    getFriendStats
        (DB.mk [⟨"a", "alice", "Alice", none⟩, ⟨"b", "bob", "Bob", none⟩]
          [⟨"f1", "a", "b", Status.pending, 0, 0⟩] []) "b" "a" ⟨2025, 4, 12⟩ =
      .error .notFriends ↔
    ∀ f ∈ (DB.mk [⟨"a", "alice", "Alice", none⟩, ⟨"b", "bob", "Bob", none⟩]
        [⟨"f1", "a", "b", Status.pending, 0, 0⟩] []).friends,
      ¬(relatesPair f "a" "b" = true ∧ f.status = Status.accepted) :=
  stats_forbidden_iff _ "b" "a" ⟨2025, 4, 12⟩

/-! ### C5 — respond requires the addressee -/

/-- C5: for a valid action, `respondToFriendRequest` fails with the NotFound
error whenever no record has both the given id and the responder as
addressee (in particular when the responder is the requester or a third
party); when such a record exists it succeeds, returning the status chosen
by the action and rewriting the matching records accordingly. -/
theorem respond_requires_addressee (db : DB) (fid uid action : String) (now : Nat)
    (hact : action = "accept" ∨ action = "reject") :
    ((∀ f ∈ db.friends, ¬(f.id = fid ∧ f.addresseeId = uid)) →
      respondToFriendRequest db fid uid action now = .error .requestNotFound) ∧
    ((∃ f ∈ db.friends, f.id = fid ∧ f.addresseeId = uid) →
      respondToFriendRequest db fid uid action now =
        .ok (⟨if action == "accept" then Status.accepted else Status.rejected⟩,
          { db with friends := db.friends.map (fun g =>
              if g.id == fid then
                { g with
                  status := if action == "accept" then Status.accepted else Status.rejected,
                  updatedAt := now }
              else g) })) := by
  have hguard : (action != "accept" && action != "reject") = false := by
    rcases hact with h | h <;> subst h <;> rfl
  constructor
  · intro hnone
    have hfind : db.friends.find? (fun f => f.id == fid && f.addresseeId == uid) = none := by
      rw [List.find?_eq_none]
      intro f hfmem
      rw [Bool.and_eq_true]
      intro ⟨h1, h2⟩
      exact hnone f hfmem ⟨beq_iff_eq.mp h1, beq_iff_eq.mp h2⟩
    simp [respondToFriendRequest, hguard, hfind]
  · rintro ⟨f, hfmem, hid, haddr⟩
    cases hfind : db.friends.find? (fun f => f.id == fid && f.addresseeId == uid) with
    | none =>
      have hp : (f.id == fid && f.addresseeId == uid) = true := by
        rw [Bool.and_eq_true]
        exact ⟨beq_iff_eq.mpr hid, beq_iff_eq.mpr haddr⟩
      exact absurd hp (List.find?_eq_none.mp hfind f hfmem)
    | some g => simp [respondToFriendRequest, hguard, hfind]

/-- C5 (witness): a pending request from `a` to `b`; responding as the
requester `a` or a third party `c` fails with NotFound, responding as the
addressee `b` accepts the request. -/
theorem respond_requires_addressee_witness :
    ((∀ f ∈ (DB.mk [⟨"a", "alice", "Alice", none⟩, ⟨"b", "bob", "Bob", none⟩]
        [⟨"f1", "a", "b", Status.pending, 0, 0⟩] []).friends,
        ¬(f.id = "f1" ∧ f.addresseeId = "a")) →
      respondToFriendRequest
          (DB.mk [⟨"a", "alice", "Alice", none⟩, ⟨"b", "bob", "Bob", none⟩]
            [⟨"f1", "a", "b", Status.pending, 0, 0⟩] []) "f1" "a" "accept" 1 =
        .error .requestNotFound) ∧
    ((∃ f ∈ (DB.mk [⟨"a", "alice", "Alice", none⟩, ⟨"b", "bob", "Bob", none⟩]
        [⟨"f1", "a", "b", Status.pending, 0, 0⟩] []).friends,
        f.id = "f1" ∧ f.addresseeId = "a") →
      respondToFriendRequest
          (DB.mk [⟨"a", "alice", "Alice", none⟩, ⟨"b", "bob", "Bob", none⟩]
            [⟨"f1", "a", "b", Status.pending, 0, 0⟩] []) "f1" "a" "accept" 1 =
        .ok (⟨if "accept" == "accept" then Status.accepted else Status.rejected⟩,
          { DB.mk [⟨"a", "alice", "Alice", none⟩, ⟨"b", "bob", "Bob", none⟩]
              [⟨"f1", "a", "b", Status.pending, 0, 0⟩] [] with
            friends := (DB.mk [⟨"a", "alice", "Alice", none⟩, ⟨"b", "bob", "Bob", none⟩]
              [⟨"f1", "a", "b", Status.pending, 0, 0⟩] []).friends.map (fun g =>
              if g.id == "f1" then
                { g with
                  status := if "accept" == "accept" then Status.accepted else Status.rejected,
                  updatedAt := 1 }
              else g) })) :=
  respond_requires_addressee _ "f1" "a" "accept" 1 (Or.inl rfl)

/-! ### C10 — action validated before lookup -/

/-- C10: for any action other than `'accept'` or `'reject'`,
`respondToFriendRequest` fails with the `'Invalid action'` error before any
record lookup — for every store, id and responder, even when no record with
that id exists — and the store is unchanged. -/
theorem invalid_action_first (db : DB) (fid uid action : String) (now : Nat)
    (h1 : action ≠ "accept") (h2 : action ≠ "reject") :
    respondToFriendRequest db fid uid action now = .error .invalidAction ∧
    applyRespond db fid uid action now = db := by
  have hb1 : (action == "accept") = false := beq_eq_false_iff_ne.mpr h1
  have hb2 : (action == "reject") = false := beq_eq_false_iff_ne.mpr h2
  have hcond : (action != "accept" && action != "reject") = true := by
    simp [bne, hb1, hb2]
  have heq : respondToFriendRequest db fid uid action now = .error .invalidAction := by
    simp [respondToFriendRequest, hcond]
  exact ⟨heq, by simp [applyRespond, heq]⟩

/-- C10 (witness): an unrecognized action on an empty store (no record with
the id exists) still yields the `'Invalid action'` error, not NotFound. -/
theorem invalid_action_first_witness :
    respondToFriendRequest (DB.mk [] [] []) "f1" "b" "confirm" 0 =
      .error .invalidAction ∧
    applyRespond (DB.mk [] [] []) "f1" "b" "confirm" 0 = DB.mk [] [] [] :=
  invalid_action_first _ "f1" "b" "confirm" 0 (by decide) (by decide)

/-! ### C7 — self-request rejection -/

/-- C7 (counterexample): when the id does not exist in the user store,
`sendFriendRequest(A, A)` fails with the `'User not found'` error, not the
self-request `InvalidOperation` error — the existence check runs before the
self-check.  So the claim's "whether or not A exists" is wrong. -/
theorem self_request_missing_user :
    sendFriendRequest (DB.mk [] [] []) "a" "a" "f1" 0 = .error .userNotFound ∧
    FriendErr.userNotFound ≠ FriendErr.selfRequest :=
  ⟨rfl, by decide⟩

/-- C7 (amended): when the id `A` resolves in the user store,
`sendFriendRequest(A, A)` fails with the self-request `InvalidOperation`
error (`'Cannot send friend request to yourself'`) and creates no record;
when `A` does not exist it fails with `'User not found'`; in both cases the
store is unchanged. -/
theorem self_request_invalid (db : DB) (A fresh : String) (now : Nat)
    (hA : (getUserById db A).isSome = true) :
    sendFriendRequest db A A fresh now = .error .selfRequest ∧
    applySend db A A fresh now = db := by
  obtain ⟨u, hu⟩ := Option.isSome_iff_exists.mp hA
  have heq : sendFriendRequest db A A fresh now = .error .selfRequest := by
    simp [sendFriendRequest, hu]
  exact ⟨heq, by simp [applySend, heq]⟩

/-- C7 (witness): an existing user sending a request to themself gets the
self-request error and the store is unchanged. -/
theorem self_request_invalid_witness :
    sendFriendRequest (DB.mk [⟨"a", "alice", "Alice", none⟩] [] []) "a" "a" "f1" 0 =
      .error .selfRequest ∧
    applySend (DB.mk [⟨"a", "alice", "Alice", none⟩] [] []) "a" "a" "f1" 0 =
      DB.mk [⟨"a", "alice", "Alice", none⟩] [] [] :=
  self_request_invalid _ "a" "f1" 0 (by decide)

/-! ### C9 — HTTP status mapping of the friend routes -/

/-- C9 (counterexample): a send-request call whose referenced user does not
exist produces HTTP status 400, not the claimed 404: the route's error
branch matches `'not found'` in the message and returns 400. -/
theorem missing_user_http_400 :
    sendRouteStatus (sendFriendRequest (DB.mk [] [] []) "a" "b" "f1" 0) = 400 ∧
    (400 : Nat) ≠ 404 :=
  ⟨rfl, by decide⟩

/-- C9 (amended): the route layer maps every send/respond failure — NotFound
(missing user, missing friendship record), Conflict (duplicate pair) and
InvalidOperation (self request, invalid action) — to HTTP 400, maps the
Forbidden stats failure to 403, maps successes to 201/200/200, and any
other (store) failure to 500; no friend route ever returns 404. -/
theorem friend_route_status_mapping :
    sendRouteStatus (.error .userNotFound) = 400 ∧
    sendRouteStatus (.error .selfRequest) = 400 ∧
    sendRouteStatus (.error .alreadyExists) = 400 ∧
    respondRouteStatus (.error .requestNotFound) = 400 ∧
    respondRouteStatus (.error .invalidAction) = 400 ∧
    statsRouteStatus (.error .notFriends) = 403 ∧
    (∀ x : SendResult × DB, sendRouteStatus (.ok x) = 201) ∧
    (∀ x : RespondResult × DB, respondRouteStatus (.ok x) = 200) ∧
    (∀ s : FriendStats, statsRouteStatus (.ok s) = 200) ∧
    (∀ r : Except FriendErr (SendResult × DB), sendRouteStatus r ≠ 404) ∧
    (∀ r : Except FriendErr (RespondResult × DB), respondRouteStatus r ≠ 404) ∧
    (∀ r : Except FriendErr FriendStats, statsRouteStatus r ≠ 404) := by
  refine ⟨rfl, rfl, rfl, rfl, rfl, rfl, fun x => rfl, fun x => rfl, fun s => rfl,
    ?_, ?_, ?_⟩
  · rintro (e | x)
    · cases e <;> decide
    · exact (by decide : (201 : Nat) ≠ 404)
  · rintro (e | x)
    · cases e <;> decide
    · exact (by decide : (200 : Nat) ≠ 404)
  · rintro (e | x)
    · cases e <;> decide
    · exact (by decide : (200 : Nat) ≠ 404)

/-! ### C6 — listFriends returns exactly the accepted relationships -/

theorem mem_getFriends_iff (db : DB) (U : String) (row : FriendRow) :
    row ∈ getFriends db U ↔ ∃ f ∈ db.friends,
      ((f.requesterId == U || f.addresseeId == U) && f.status == Status.accepted) = true ∧
      friendRowOf db U f = some row := by
  unfold getFriends
  simp only [List.mem_insertionSort, List.mem_filterMap, List.mem_filter]
  exact ⟨fun ⟨f, ⟨h1, h2⟩, h3⟩ => ⟨f, h1, h2, h3⟩, fun ⟨f, h1, h2, h3⟩ => ⟨f, ⟨h1, h2⟩, h3⟩⟩

/-- C6: `getFriends(U)` returns exactly the friendship records where `U` is
either party and the status is `accepted` — each joined with the other
party's public profile — ordered most recently created first; and after a
successful `respondToFriendRequest(id, B, 'reject')` no `getFriends` result
for any user contains that friendship id. -/
theorem getFriends_spec (db : DB) (U : String)
    (hUsers : ∀ f ∈ db.friends, (getUserById db f.requesterId).isSome = true ∧
      (getUserById db f.addresseeId).isSome = true) :
    (∀ f ∈ db.friends, (f.requesterId = U ∨ f.addresseeId = U) →
      f.status = Status.accepted →
      ∃ row ∈ getFriends db U, row.friendshipId = f.id ∧
        row.id = (if f.requesterId = U then f.addresseeId else f.requesterId)) ∧
    (∀ row ∈ getFriends db U, ∃ f ∈ db.friends,
      (f.requesterId = U ∨ f.addresseeId = U) ∧ f.status = Status.accepted ∧
      row.friendshipId = f.id ∧
      getUserById db (if f.requesterId = U then f.addresseeId else f.requesterId) =
        some ⟨row.id, row.username, row.displayName, row.avatarUrl⟩) ∧
    List.Sorted laterFirst (getFriends db U) ∧
    (∀ (fid uid : String) (now : Nat) (r : RespondResult) (db' : DB),
      respondToFriendRequest db fid uid "reject" now = .ok (r, db') →
      ∀ X : String, ∀ row ∈ getFriends db' X, row.friendshipId ≠ fid) := by
  refine ⟨?_, ?_, ?_, ?_⟩
  · -- completeness: every accepted record with U as a party yields a row
    intro f hfmem hparty hacc
    have hp : ((f.requesterId == U || f.addresseeId == U) &&
        f.status == Status.accepted) = true := by
      rw [Bool.and_eq_true, Bool.or_eq_true]
      exact ⟨hparty.imp beq_iff_eq.mpr beq_iff_eq.mpr, beq_iff_eq.mpr hacc⟩
    by_cases hreq : f.requesterId = U
    · obtain ⟨u, hu⟩ := Option.isSome_iff_exists.mp (hUsers f hfmem).2
      have huid : u.id = f.addresseeId := by
        rw [getUserById] at hu
        have h2 := List.find?_some hu
        simpa using h2
      refine ⟨⟨f.id, f.status, f.createdAt, u.id, u.username, u.displayName, u.avatarUrl⟩,
        ?_, rfl, ?_⟩
      · rw [mem_getFriends_iff]
        refine ⟨f, hfmem, hp, ?_⟩
        simp [friendRowOf, beq_iff_eq.mpr hreq, hu]
      · rw [if_pos hreq]; exact huid
    · obtain ⟨u, hu⟩ := Option.isSome_iff_exists.mp (hUsers f hfmem).1
      have huid : u.id = f.requesterId := by
        rw [getUserById] at hu
        have h2 := List.find?_some hu
        simpa using h2
      refine ⟨⟨f.id, f.status, f.createdAt, u.id, u.username, u.displayName, u.avatarUrl⟩,
        ?_, rfl, ?_⟩
      · rw [mem_getFriends_iff]
        refine ⟨f, hfmem, hp, ?_⟩
        simp [friendRowOf, beq_eq_false_iff_ne.mpr hreq, hu]
      · rw [if_neg hreq]; exact huid
  · -- soundness: every row comes from an accepted record with U as a party
    intro row hrow
    rw [mem_getFriends_iff] at hrow
    obtain ⟨f, hfmem, hp, hg⟩ := hrow
    rw [Bool.and_eq_true, Bool.or_eq_true] at hp
    obtain ⟨hparty, hst⟩ := hp
    refine ⟨f, hfmem, hparty.imp beq_iff_eq.mp beq_iff_eq.mp, beq_iff_eq.mp hst, ?_, ?_⟩
    · unfold friendRowOf at hg
      cases hu : getUserById db
          (if f.requesterId == U then f.addresseeId else f.requesterId) with
      | none => rw [hu] at hg; cases hg
      | some u =>
        rw [hu] at hg
        have hrow' : (⟨f.id, f.status, f.createdAt, u.id, u.username, u.displayName,
            u.avatarUrl⟩ : FriendRow) = row := Option.some.inj hg
        rw [← hrow']
    · unfold friendRowOf at hg
      cases hu : getUserById db
          (if f.requesterId == U then f.addresseeId else f.requesterId) with
      | none => rw [hu] at hg; cases hg
      | some u =>
        rw [hu] at hg
        have hrow' : (⟨f.id, f.status, f.createdAt, u.id, u.username, u.displayName,
            u.avatarUrl⟩ : FriendRow) = row := Option.some.inj hg
        rw [← hrow']
        by_cases hreq : f.requesterId = U
        · rw [if_pos hreq]
          rw [if_pos (beq_iff_eq.mpr hreq)] at hu
          exact hu
        · rw [if_neg hreq]
          rw [if_neg (by rw [beq_eq_false_iff_ne.mpr hreq]; exact Bool.false_ne_true)] at hu
          exact hu
  · -- ordering: most recently created first
    exact List.sorted_insertionSort laterFirst _
  · -- visibility gating after a successful reject
    intro fid uid now r db' h X row hrow
    have hfr : db'.friends = db.friends.map (fun g =>
        if g.id == fid then { g with status := Status.rejected, updatedAt := now }
        else g) := by
      cases hfind : db.friends.find? (fun g => g.id == fid && g.addresseeId == uid) with
      | none => simp [respondToFriendRequest, hfind] at h
      | some g =>
        simp only [respondToFriendRequest, hfind] at h
        have h' := (Except.ok.inj h)
        have hdb' : db' = { db with friends := db.friends.map (fun g =>
            if g.id == fid then { g with status := Status.rejected, updatedAt := now }
            else g) } := by
          have := congrArg Prod.snd h'
          simpa using this.symm
        rw [hdb']
    rw [mem_getFriends_iff] at hrow
    obtain ⟨f, hfmem, hp, hg⟩ := hrow
    rw [Bool.and_eq_true] at hp
    have hfid : row.friendshipId = f.id := by
      unfold friendRowOf at hg
      cases hu : getUserById db'
          (if f.requesterId == X then f.addresseeId else f.requesterId) with
      | none => rw [hu] at hg; cases hg
      | some u =>
        rw [hu] at hg
        have hrow' := Option.some.inj hg
        rw [← hrow']
    rw [hfr] at hfmem
    obtain ⟨g, hgmem, hgf⟩ := List.mem_map.mp hfmem
    intro hcontr
    by_cases hgid : (g.id == fid) = true
    · rw [if_pos hgid] at hgf
      have : f.status = Status.rejected := by rw [← hgf]
      rw [this] at hp
      exact absurd (beq_iff_eq.mp hp.2) (by decide)
    · rw [if_neg hgid] at hgf
      have : f.id = g.id := by rw [← hgf]
      rw [hfid, this] at hcontr
      exact absurd (beq_iff_eq.mpr hcontr) (by simpa using hgid)

/-- C6 (witness): a store with one accepted friendship between `a` and `b`
satisfies the user-existence hypothesis, and the conclusion is exhibited
for `U = "a"`. -/
theorem getFriends_spec_witness :
    (∀ f ∈ (DB.mk [⟨"a", "alice", "Alice", none⟩, ⟨"b", "bob", "Bob", none⟩]
        [⟨"f1", "a", "b", Status.accepted, 0, 0⟩] []).friends,
      (getUserById (DB.mk [⟨"a", "alice", "Alice", none⟩, ⟨"b", "bob", "Bob", none⟩]
        [⟨"f1", "a", "b", Status.accepted, 0, 0⟩] []) f.requesterId).isSome = true ∧
      (getUserById (DB.mk [⟨"a", "alice", "Alice", none⟩, ⟨"b", "bob", "Bob", none⟩]
        [⟨"f1", "a", "b", Status.accepted, 0, 0⟩] []) f.addresseeId).isSome = true) ∧
    List.Sorted laterFirst (getFriends
      (DB.mk [⟨"a", "alice", "Alice", none⟩, ⟨"b", "bob", "Bob", none⟩]
        [⟨"f1", "a", "b", Status.accepted, 0, 0⟩] []) "a") :=
  have hu : ∀ f ∈ (DB.mk [⟨"a", "alice", "Alice", none⟩, ⟨"b", "bob", "Bob", none⟩]
      [⟨"f1", "a", "b", Status.accepted, 0, 0⟩] []).friends,
      (getUserById (DB.mk [⟨"a", "alice", "Alice", none⟩, ⟨"b", "bob", "Bob", none⟩]
        [⟨"f1", "a", "b", Status.accepted, 0, 0⟩] []) f.requesterId).isSome = true ∧
      (getUserById (DB.mk [⟨"a", "alice", "Alice", none⟩, ⟨"b", "bob", "Bob", none⟩]
        [⟨"f1", "a", "b", Status.accepted, 0, 0⟩] []) f.addresseeId).isSome = true := by
    decide
  ⟨hu, (getFriends_spec _ "a" hu).2.2.1⟩

/-! ### C8 — rounding and windowing of friend stats -/

/-- C8 (counterexample): the friend's only expense is dated 2015-01-01,
outside the 6-month window (cutoff 2025-04-12) and outside any 12-month
window (cutoff 2024-10-12), yet `getFriendStats` returns it in the category
breakdown; the monthly data is empty because that query alone is windowed.
So the category breakdown spans the entire expense history, contradicting
the claimed bounded recent window for both breakdowns. -/
theorem category_breakdown_unbounded :
    getFriendStats
        (DB.mk [⟨"a", "alice", "Alice", none⟩, ⟨"b", "bob", "Bob", none⟩]
          [⟨"f1", "a", "b", Status.accepted, 0, 0⟩]
          [⟨"b", 5, ⟨2015, 1, 1⟩, "Old"⟩]) "b" "a" ⟨2025, 4, 12⟩ =
      .ok ⟨1, 5, 5, [], [⟨"Old", 1, 5⟩]⟩ ∧
    Date.le ⟨2025, 4, 12⟩ ⟨2015, 1, 1⟩ = false ∧
    Date.le ⟨2024, 10, 12⟩ ⟨2015, 1, 1⟩ = false := by
  refine ⟨?_, by decide, by decide⟩
  norm_num [getFriendStats, relatesPair, round2, ratSum, dedupFirst, monthKey, Date.le,
    List.insertionSort, List.orderedInsert, getUserById]

/-- C8 (amended): on success `getFriendStats` returns monetary figures that
are integer numbers of hundredths (rounded to 2 decimal places); every
monthly bucket is derived only from the friend's expenses on or after the
six-month cutoff date; but every expense of the friend — with no date
restriction whatsoever — contributes a bucket of the category breakdown. -/
theorem friendStats_spec (db : DB) (friendId currentUserId : String) (cutoff : Date)
    (s : FriendStats) (h : getFriendStats db friendId currentUserId cutoff = .ok s) :
    (∃ k : ℤ, s.totalAmount = (k : ℚ) / 100) ∧
    (∃ k : ℤ, s.averageAmount = (k : ℚ) / 100) ∧
    (∀ m ∈ s.monthlyData, (∃ k : ℤ, m.total = (k : ℚ) / 100) ∧
      ∃ e ∈ db.expenses, e.userId = friendId ∧ Date.le cutoff e.date = true ∧
        monthKey e.date = m.month) ∧
    (∀ c ∈ s.categoryBreakdown, ∃ k : ℤ, c.total = (k : ℚ) / 100) ∧
    (∀ e ∈ db.expenses, e.userId = friendId →
      ∃ c ∈ s.categoryBreakdown, c.category = e.category) := by
  by_cases hauth : (db.friends.any fun f =>
      relatesPair f currentUserId friendId && f.status == Status.accepted) = true
  · rw [getFriendStats, hauth] at h
    simp only [Bool.not_true, Bool.false_eq_true, if_false] at h
    have hs := (Except.ok.inj h).symm
    subst hs
    refine ⟨?_, ?_, ?_, ?_, ?_⟩
    · by_cases hemp : (db.expenses.filter (fun e => e.userId == friendId)).isEmpty = true
      · exact ⟨0, by simp [hemp]⟩
      · simp only [hemp, if_false]
        exact round2_image _
    · by_cases hemp : (db.expenses.filter (fun e => e.userId == friendId)).isEmpty = true
      · exact ⟨0, by simp [hemp]⟩
      · simp only [hemp, if_false]
        exact round2_image _
    · intro m hm
      simp only [List.mem_insertionSort] at hm
      obtain ⟨key, hkey, hmk⟩ := List.mem_map.mp hm
      refine ⟨by rw [← hmk]; exact round2_image _, ?_⟩
      have hkey' := mem_of_mem_dedupFirst hkey
      obtain ⟨e, hemem, hek⟩ := List.mem_map.mp hkey'
      obtain ⟨hemem', hle⟩ := List.mem_filter.mp hemem
      obtain ⟨hemem'', huid⟩ := List.mem_filter.mp hemem'
      exact ⟨e, hemem'', beq_iff_eq.mp huid, hle, by rw [hek, ← hmk]⟩
    · intro c hc
      simp only [List.mem_insertionSort] at hc
      obtain ⟨key, _, hck⟩ := List.mem_map.mp hc
      rw [← hck]
      exact round2_image _
    · intro e hemem huid
      have hin : e ∈ db.expenses.filter (fun e => e.userId == friendId) :=
        List.mem_filter.mpr ⟨hemem, beq_iff_eq.mpr huid⟩
      have hcat : e.category ∈
          dedupFirst ((db.expenses.filter (fun e => e.userId == friendId)).map
            (fun x => x.category)) :=
        mem_dedupFirst_of_mem (List.mem_map_of_mem _ hin)
      refine ⟨⟨e.category,
        ((db.expenses.filter (fun x => x.userId == friendId)).filter
          (fun x => x.category == e.category)).length,
        round2 (ratSum (((db.expenses.filter (fun x => x.userId == friendId)).filter
          (fun x => x.category == e.category)).map (fun x => x.amount)))⟩, ?_, rfl⟩
      simp only [List.mem_insertionSort]
      exact List.mem_map_of_mem _ hcat
  · rw [getFriendStats] at h
    rw [Bool.not_eq_true] at hauth
    rw [hauth] at h
    simp only [Bool.not_false, if_true] at h
    cases h

/-- C8 (witness): instantiation at a concrete store with one accepted
friendship and one expense. -/
theorem friendStats_spec_witness :
    getFriendStats
        (DB.mk [⟨"a", "alice", "Alice", none⟩, ⟨"b", "bob", "Bob", none⟩]
          [⟨"f1", "a", "b", Status.accepted, 0, 0⟩]
          [⟨"b", 5, ⟨2025, 9, 1⟩, "Food"⟩]) "b" "a" ⟨2025, 4, 12⟩ =
      .ok ⟨1, 5, 5, [⟨202509, 1, 5⟩], [⟨"Food", 1, 5⟩]⟩ ∧
    ((∃ k : ℤ, (5 : ℚ) = (k : ℚ) / 100) ∧
     (∃ k : ℤ, (5 : ℚ) = (k : ℚ) / 100) ∧
     (∀ m ∈ [(⟨202509, 1, 5⟩ : MonthRow)], (∃ k : ℤ, m.total = (k : ℚ) / 100) ∧
       ∃ e ∈ [(⟨"b", 5, ⟨2025, 9, 1⟩, "Food"⟩ : Expense)], e.userId = "b" ∧
         Date.le ⟨2025, 4, 12⟩ e.date = true ∧ monthKey e.date = m.month) ∧
     (∀ c ∈ [(⟨"Food", 1, 5⟩ : CategoryRow)], ∃ k : ℤ, c.total = (k : ℚ) / 100) ∧
     (∀ e ∈ [(⟨"b", 5, ⟨2025, 9, 1⟩, "Food"⟩ : Expense)], e.userId = "b" →
       ∃ c ∈ [(⟨"Food", 1, 5⟩ : CategoryRow)], c.category = e.category)) :=
  have hok : getFriendStats
      (DB.mk [⟨"a", "alice", "Alice", none⟩, ⟨"b", "bob", "Bob", none⟩]
        [⟨"f1", "a", "b", Status.accepted, 0, 0⟩]
        [⟨"b", 5, ⟨2025, 9, 1⟩, "Food"⟩]) "b" "a" ⟨2025, 4, 12⟩ =
      .ok ⟨1, 5, 5, [⟨202509, 1, 5⟩], [⟨"Food", 1, 5⟩]⟩ := by
    norm_num [getFriendStats, relatesPair, round2, ratSum, dedupFirst, monthKey, Date.le,
      List.insertionSort, List.orderedInsert, getUserById]
  ⟨hok, friendStats_spec _ "b" "a" ⟨2025, 4, 12⟩ _ hok⟩

end WalletServer
